import Mathlib

/-!
Shallow embedding of the go-start-stop supervisor (src/main.go).

The program has two layers:

* `Service`: a named unit with a configured timeout.  `New` builds it with no
  cancellation token (the Go struct's `cancel` field is the nil zero value).
  `Start` allocates a fresh token and spawns `run`, which races a fail timer
  (`time.After(s.timeout)`, or `time.After(time.Hour*1000)` when the `clean`
  flag is set) against the token; the goroutine sends the error, if any, on a
  channel and closes it (`defer close(errc)`).
* `main`: starts services "a"/"b"/"c" (3s/2s/5s), then loops
  `for retries := 2; retries >= 0; retries--` selecting over the three
  completion channels and a signal channel, restarting a completed service
  while `retries > 0`, breaking out of the loop on a signal; afterwards it
  stops all three services and drains each current channel once.

Durations are nanoseconds (Go `time.Duration`), modelled as `Nat`.
Concurrency is modelled by an explicit schedule of events (`Event`): a
service's run finishing, the select picking a ready completion channel, or
the signal channel firing.  A schedule that would make the program block or
that fires an event that cannot be ready yields `none`.
-/

/-- One nanosecond-denominated second, as in Go `time.Second`. -/
def second : Nat := 1000000000

/-- One nanosecond-denominated hour, as in Go `time.Hour`. -/
def hour : Nat := 3600 * second

/-- The single error kind the program produces: the payload of
`fmt.Errorf("service %s timed out after %v", s.name, s.timeout)`. -/
structure SvcError where
  name : String
  timeout : Nat
deriving DecidableEq, Repr

/-- The `Service` struct: name and timeout are fixed at construction; `cancel`
models the `context.CancelFunc` field — `none` is the nil zero value before
the first `Start`, `some b` is a token whose signalled flag is `b`. -/
structure Service where
  name : String
  timeout : Nat
  cancel : Option Bool
deriving DecidableEq, Repr

/-- `New` creates a Service; the Go constructor sets only `name` and
`timeout`, leaving `ctx`/`cancel` nil. -/
def New (name : String) (timeout : Nat) : Service :=
  { name := name, timeout := timeout, cancel := none }

/-- The error value `run` returns on the timer path: it carries the service's
name and its configured timeout `s.timeout` (not the effective timer). -/
def timeoutErr (s : Service) : SvcError :=
  { name := s.name, timeout := s.timeout }

/-- The token-allocation side effect of `Start`:
`s.ctx, s.cancel = context.WithCancel(context.Background())` replaces any
previous token with a fresh, unsignalled one. -/
def Service.startToken (s : Service) : Service :=
  { s with cancel := some false }

/-- The `Stop` method is `s.cancel()`.  Calling a nil `context.CancelFunc`
(no `Start` ever ran) is a nil-function-call panic, modelled as `none`;
otherwise the token becomes signalled (`context` cancel funcs are
idempotent). -/
def Service.Stop (s : Service) : Option Service :=
  match s.cancel with
  | none => none
  | some _ => some { s with cancel := some true }

/-- Iterated `Stop`: `stopN n s` performs `n` successive `Stop` calls,
propagating a crash. -/
def stopN : Nat → Service → Option Service
  | 0, s => some s
  | n + 1, s => (Service.Stop s).bind (stopN n)

/-- The fail-timer duration `run` arms: `time.After(time.Hour*1000)` under
the `clean` flag, else `time.After(s.timeout)`. -/
def effectiveTimeout (cleanFlag : Bool) (s : Service) : Nat :=
  if cleanFlag then 1000 * hour else s.timeout

/-- The body of `Service.run`: a race between the fail timer and the
cancellation token.  `cancelAt` is the time the token is signalled (`none` if
never).  Result: the time the run ends and its return value — the timer
firing first yields the timeout error, the token firing first yields `nil`
(ties resolve to the timer here; the Go select may pick either). -/
def Service.run (cleanFlag : Bool) (s : Service) (cancelAt : Option Nat) :
    Nat × Option SvcError :=
  let tf := effectiveTimeout cleanFlag s
  match cancelAt with
  | none => (tf, some (timeoutErr s))
  | some tc => if tc < tf then (tc, none) else (tf, some (timeoutErr s))

/-- The channel contents produced by `Start`'s goroutine
(`defer close(errc); if err := s.run(); err != nil { errc <- err }`): the
list of values sent before the channel is closed. -/
def startHandle (runResult : Option SvcError) : List SvcError :=
  match runResult with
  | some e => [e]
  | none => []

/-- Go receive semantics on such a channel: the `k`-th receive returns the
`k`-th sent value, and every receive past the sends returns the zero value
`nil` immediately (the channel is closed). -/
def handleRecv (sends : List SvcError) (k : Nat) : Option SvcError :=
  sends.get? k

/-- Observable state of a service's current completion channel, as seen by
`main`'s select loop: the goroutine still running, a finished run blocked
sending its error, or all values delivered and the channel closed. -/
inductive HState where
  | running
  | pendingSend (e : SvcError)
  | closedDone
deriving DecidableEq, Repr

/-- A scheduler event while control is in the retry loop.  `finish i`:
service `i`'s run completes (pre-drain, that can only be by timeout, since
nothing cancels a token before the loop ends).  `recv i`: the select picks
service `i`'s ready channel and the loop body runs one iteration on it.
`signal`: the select picks the signal channel (`break retryLoop`). -/
inductive Event where
  | finish (i : Fin 3)
  | recv (i : Fin 3)
  | signal
deriving DecidableEq, Repr

/-- Why the retry loop ended: the `retries >= 0` condition failed, or a
signal broke out of it. -/
inductive ExitCause where
  | budget
  | shutdown
deriving DecidableEq, Repr

/-- Outcome of the race inside a still-running service once `Stop` has been
called during the drain phase: the token (clean stop) or the timer wins. -/
inductive RaceWinner where
  | timeout
  | cancelled
deriving DecidableEq, Repr

/-- Supervisor state: the three services, each service's current completion
channel and its generation (how many times that slot was replaced by a
restart), the shared `retries` counter, the number of completion events the
loop has consumed, and the restarts issued in order. -/
structure SupState where
  services : Fin 3 → Service
  handles : Fin 3 → HState
  gens : Fin 3 → Nat
  retries : Int
  consumed : Nat
  restarts : List (Fin 3)
deriving DecidableEq

/-- The state after `main`'s prologue: services "a" (3s), "b" (2s), "c" (5s)
are created and each is started once, with the loop counter initialised to
the retry budget (`retries := 2` in the source, generalised to `r`). -/
def initState (r : Nat) : SupState :=
  { services := fun i =>
      (![New "a" (3 * second), New "b" (2 * second), New "c" (5 * second)] i).startToken
    handles := fun _ => HState.running
    gens := fun _ => 0
    retries := (r : Int)
    consumed := 0
    restarts := [] }

/-- One `case err := <-xc:` arm of the loop body, for service `i`: the ready
value is received (counted in `consumed`); if `retries > 0` the service is
started again — only slot `i`'s channel is replaced by a fresh running one —
otherwise the now-closed channel stays in place.  The `retries--` of the
`for` post-statement is applied by the caller. -/
def stepRecv (st : SupState) (i : Fin 3) : SupState :=
  if 0 < st.retries then
    { st with
      handles := Function.update st.handles i HState.running
      gens := Function.update st.gens i (st.gens i + 1)
      services := Function.update st.services i ((st.services i).startToken)
      consumed := st.consumed + 1
      restarts := st.restarts ++ [i] }
  else
    { st with
      handles := Function.update st.handles i HState.closedDone
      consumed := st.consumed + 1 }

/-- The retry loop `for retries := r; retries >= 0; retries--` driven by an
event schedule.  `none` means the schedule is impossible (an event fired on a
channel not in the right state) or ran dry while the loop was still blocked
in its select.  A `finish` is an asynchronous transition of a channel, not a
loop iteration; a `recv` runs one iteration and then the `retries--`;
`signal` exits via `break retryLoop`, skipping the decrement. -/
def runLoop (st : SupState) (events : List Event) : Option (SupState × ExitCause) :=
  if st.retries < 0 then some (st, ExitCause.budget)
  else
    match events with
    | [] => none
    | Event.finish i :: rest =>
      match st.handles i with
      | HState.running =>
        runLoop
          { st with
            handles := Function.update st.handles i (HState.pendingSend (timeoutErr (st.services i))) }
          rest
      | _ => none
    | Event.recv i :: rest =>
      match st.handles i with
      | HState.pendingSend _ => runLoop { stepRecv st i with retries := st.retries - 1 } rest
      | _ => none
    | Event.signal :: _ => some (st, ExitCause.shutdown)

/-- The `a.Stop(); b.Stop(); c.Stop()` epilogue: requests cancellation on
every service, crashing (`none`) if any `cancel` is still nil. -/
def stopAll (st : SupState) : Option SupState := do
  let s0 ← (st.services 0).Stop
  let s1 ← (st.services 1).Stop
  let s2 ← (st.services 2).Stop
  pure { st with services := ![s0, s1, s2] }

/-- The state `stopAll` produces when every service has a token. -/
def stoppedState (st : SupState) : SupState :=
  { st with services := fun i => { st.services i with cancel := some true } }

/-- One drain read `<-xc` after `Stop` was requested on every service: a
pending error is received; a closed channel yields `nil` immediately; a
still-running service ends its race (token now signalled) with outcome
chosen by `w` and the read observes it. -/
def drainRead (svc : Service) (h : HState) (w : RaceWinner) : Option SvcError :=
  match h with
  | HState.pendingSend e => some e
  | HState.closedDone => none
  | HState.running =>
    match w with
    | RaceWinner.cancelled => none
    | RaceWinner.timeout => some (timeoutErr svc)

/-- The drain phase: one final read of each service's current channel, in
order a, b, c. -/
def drainAll (st : SupState) (w : Fin 3 → RaceWinner) : Fin 3 → Option SvcError :=
  fun i => drainRead (st.services i) (st.handles i) (w i)

/-- The whole of `main` after the prologue, from an arbitrary loop state:
run the retry loop, then stop every service, then drain each channel once;
the result is the value each drain read observed (non-nil entries are the
errors `main` logs during drain). -/
def mainFrom (st : SupState) (events : List Event) (w : Fin 3 → RaceWinner) :
    Option (Fin 3 → Option SvcError) := do
  let (st1, _) ← runLoop st events
  let st2 ← stopAll st1
  pure (drainAll st2 w)

/-- `main` with retry budget `r`: prologue, retry loop, stop-all, drain. -/
def mainModel (r : Nat) (events : List Event) (w : Fin 3 → RaceWinner) :
    Option (Fin 3 → Option SvcError) :=
  mainFrom (initState r) events w

/-- The services the loop's consumed completion events refer to, in schedule
order. -/
def recvTargets (events : List Event) : List (Fin 3) :=
  events.filterMap fun e =>
    match e with
    | Event.recv i => some i
    | _ => none

/-- A concrete schedule with budget 2 and no signal: "b" times out and is
restarted, then "a", then the restarted "b" again; the third completion
exhausts the budget. -/
def ev1 : List Event :=
  [Event.finish 1, Event.recv 1, Event.finish 0, Event.recv 0,
   Event.finish 1, Event.recv 1]

/-- The loop state schedule `ev1` ends in ("a" and "b" each restarted once,
"b"'s last completion left closed, "c" untouched, budget spent), extracted
from the run itself so that concrete executions reduce to it. -/
def w1st : SupState :=
  ((runLoop (initState 2) ev1).getD (initState 2, ExitCause.budget)).1

/-- The loop state after a budget of 0 consumes a single completion of "b"
(no restart, "b"'s channel closed, "a" and "c" still running), extracted
from the run itself. -/
def w5st : SupState :=
  ((runLoop (initState 0) [Event.finish 1, Event.recv 1]).getD
    (initState 0, ExitCause.budget)).1

/-- Stopping an already-signalled token any number of times changes
nothing. -/
theorem stopN_stopped (s : Service) (n : Nat) :
    stopN n { s with cancel := some true } = some { s with cancel := some true } := by
  induction n with
  | zero => rfl
  | succ n ih => simp [stopN, Service.Stop, ih]

/-- C2: every `Start` call's completion handle yields exactly one terminal
outcome and then signals that no further value will arrive: the first
receive returns the run's result (an error for a timeout, `nil` for a clean
stop — never zero outcomes, since the goroutine always sends-then-closes or
closes), at most one value is ever sent (never two), and every receive after
the first returns `nil` from the closed channel. -/
theorem spec_C2_one_shot (cleanFlag : Bool) (s : Service) (cancelAt : Option Nat) :
    handleRecv (startHandle (Service.run cleanFlag s cancelAt).2) 0
      = (Service.run cleanFlag s cancelAt).2 ∧
    (startHandle (Service.run cleanFlag s cancelAt).2).length ≤ 1 ∧
    ∀ k, 1 ≤ k → handleRecv (startHandle (Service.run cleanFlag s cancelAt).2) k = none := by
  generalize (Service.run cleanFlag s cancelAt).2 = o
  rcases o with _ | e
  · refine ⟨rfl, by simp [startHandle], ?_⟩
    intro k _
    simp [startHandle, handleRecv]
  · refine ⟨rfl, by simp [startHandle], ?_⟩
    intro k hk
    obtain ⟨m, rfl⟩ : ∃ m, k = m + 1 := ⟨k - 1, by omega⟩
    simp [startHandle, handleRecv]

theorem spec_C2_witness :
    handleRecv (startHandle (Service.run false ((New "a" (3 * second)).startToken) none).2) 1
      = none :=
  (spec_C2_one_shot false ((New "a" (3 * second)).startToken) none).2.2 1 (by decide)

/-- C3 counterexample: the claim quantifies over every `Service` instance
and allows `Stop` before the service's natural completion, but `New` leaves
the `cancel` field nil, so `Stop` on a constructed-but-never-started
instance calls a nil `context.CancelFunc` and panics (modelled as
`none`). -/
theorem spec_C3_counterexample : (New "a" (3 * second)).Stop = none := rfl

/-- C3 as amended: once `Start` has run at least once on the instance (the
`cancel` token exists), `Stop` can be invoked any number of times — during
or after the run's natural completion — and every such sequence of calls
returns without crash, with no observable effect beyond the first
cancellation request: any `n ≥ 1` calls leave the service exactly in the
once-cancelled state. -/
theorem spec_C3_stop_any_number (s : Service) (h : (s.cancel).isSome) (n : Nat)
    (hn : 1 ≤ n) :
    stopN n s = some { s with cancel := some true } := by
  obtain ⟨b, hb⟩ := Option.isSome_iff_exists.mp h
  obtain ⟨m, rfl⟩ : ∃ m, n = m + 1 := ⟨n - 1, by omega⟩
  have hs : Service.Stop s = some { s with cancel := some true } := by
    simp [Service.Stop, hb]
  simp [stopN, hs, stopN_stopped]

theorem spec_C3_witness :
    stopN 5 ((New "a" (3 * second)).startToken)
      = some { (New "a" (3 * second)).startToken with cancel := some true } :=
  spec_C3_stop_any_number ((New "a" (3 * second)).startToken) (by decide) 5 (by decide)

/-- C4 counterexample: in clean (never-fail) configuration a started service
with no cancellation does complete on its own — the `time.After(time.Hour*1000)`
timer fires after 1000 hours of elapsed time and the run returns a timeout
error; a loop consuming such a completion then ends by budget exhaustion,
not by the shutdown source. -/
theorem spec_C4_counterexample :
    Service.run true ((New "a" (3 * second)).startToken) none
      = (1000 * hour, some { name := "a", timeout := 3 * second }) ∧
    (runLoop (initState 0) [Event.finish 0, Event.recv 0]).map Prod.snd
      = some ExitCause.budget := by
  exact ⟨rfl, rfl⟩

/-- C4 as amended: in clean configuration every service's effective timeout
is 1000 hours, so a started service completes on its own only once 1000
hours have elapsed; any cancellation arriving strictly before that horizon
ends the run cleanly, so within the 1000-hour horizon the loop can only end
via the external shutdown source, never via budget exhaustion. -/
theorem spec_C4_clean_horizon (s : Service) (tc : Nat) (h : tc < 1000 * hour) :
    Service.run true s none = (1000 * hour, some (timeoutErr s)) ∧
    Service.run true s (some tc) = (tc, none) := by
  constructor
  · simp [Service.run, effectiveTimeout]
  · simp [Service.run, effectiveTimeout, h]

theorem spec_C4_witness :
    Service.run true ((New "a" (3 * second)).startToken) none
      = (1000 * hour, some (timeoutErr ((New "a" (3 * second)).startToken))) ∧
    Service.run true ((New "a" (3 * second)).startToken) (some 0) = (0, none) :=
  spec_C4_clean_horizon ((New "a" (3 * second)).startToken) 0 (by decide)

/-- C7: the only error a run can produce is the timeout error carrying the
service's name and its configured timeout, and it is produced exactly when
the fail timer fires before the cancellation token is signalled; a run ended
by the token yields no error. -/
theorem spec_C7_error_kind (cleanFlag : Bool) (s : Service) (cancelAt : Option Nat) :
    (∀ e, (Service.run cleanFlag s cancelAt).2 = some e
      → e = { name := s.name, timeout := s.timeout }) ∧
    ((Service.run cleanFlag s cancelAt).2 = none ↔
      ∃ tc, cancelAt = some tc ∧ tc < effectiveTimeout cleanFlag s) := by
  rcases cancelAt with _ | tc
  · constructor
    · intro e he
      simpa [Service.run, timeoutErr] using he.symm
    · simp [Service.run]
  · by_cases hlt : tc < effectiveTimeout cleanFlag s
    · constructor
      · intro e he
        simp [Service.run, hlt] at he
      · simp [Service.run, hlt]
    · constructor
      · intro e he
        simpa [Service.run, hlt, timeoutErr] using he.symm
      · simp [Service.run, hlt]

theorem spec_C7_witness :
    (Service.run false ((New "a" (3 * second)).startToken) (some 0)).2 = none :=
  (spec_C7_error_kind false ((New "a" (3 * second)).startToken) (some 0)).2.mpr
    ⟨0, rfl, by decide⟩

/-- C10: once the terminal outcome has been delivered, every later receive
on the same handle returns `nil` immediately: the channel is closed after at
most one send, so a redundant drain read of an already-consumed handle
(state `closedDone`) never blocks and never re-delivers the original timeout
error. -/
theorem spec_C10_after_consume (o : Option SvcError) (k : Nat) (hk : 1 ≤ k) :
    handleRecv (startHandle o) k = none ∧
    (startHandle o).length ≤ 1 ∧
    ∀ svc w, drainRead svc HState.closedDone w = none := by
  obtain ⟨m, rfl⟩ : ∃ m, k = m + 1 := ⟨k - 1, by omega⟩
  rcases o with _ | e
  · exact ⟨by simp [handleRecv, startHandle], by simp [startHandle], fun svc w => rfl⟩
  · exact ⟨by simp [handleRecv, startHandle], by simp [startHandle], fun svc w => rfl⟩

theorem spec_C10_witness :
    handleRecv (startHandle (some { name := "b", timeout := 2 * second })) 1 = none ∧
    (startHandle (some { name := "b", timeout := 2 * second })).length ≤ 1 ∧
    ∀ svc w, drainRead svc HState.closedDone w = none :=
  spec_C10_after_consume (some { name := "b", timeout := 2 * second }) 1 (by decide)

/-- The loop exits with the budget cause as soon as the `retries >= 0`
condition fails, whatever events remain. -/
theorem runLoop_budget_exit (st : SupState) (events : List Event) (h : st.retries < 0) :
    runLoop st events = some (st, ExitCause.budget) := by
  rw [runLoop.eq_def]
  simp [h]

/-- A still-active loop with no event left blocks forever. -/
theorem runLoop_nil_active (st : SupState) (h : ¬ st.retries < 0) :
    runLoop st [] = none := by
  rw [runLoop.eq_def]
  simp [h]

/-- A signal picked by an active loop breaks out immediately, leaving the
state untouched. -/
theorem runLoop_signal_active (st : SupState) (rest : List Event) (h : ¬ st.retries < 0) :
    runLoop st (Event.signal :: rest) = some (st, ExitCause.shutdown) := by
  rw [runLoop.eq_def]
  simp [h]

/-- A run finishing while the loop is active marks that channel ready with
the timeout error and the loop keeps waiting. -/
theorem runLoop_finish_active (st : SupState) (i : Fin 3) (rest : List Event)
    (h : ¬ st.retries < 0) (hh : st.handles i = HState.running) :
    runLoop st (Event.finish i :: rest)
      = runLoop
          { st with handles :=
              Function.update st.handles i (HState.pendingSend (timeoutErr (st.services i))) }
          rest := by
  rw [runLoop.eq_def]
  simp [h, hh]

/-- A `finish` event on a channel whose run is not in flight is an
impossible schedule. -/
theorem runLoop_finish_stuck (st : SupState) (i : Fin 3) (rest : List Event)
    (h : ¬ st.retries < 0) (hh : st.handles i ≠ HState.running) :
    runLoop st (Event.finish i :: rest) = none := by
  rw [runLoop.eq_def]
  rcases hs : st.handles i with _ | e | _
  · exact absurd hs hh
  · simp [h, hs]
  · simp [h, hs]

/-- The select picking a ready channel runs one loop iteration followed by
the `retries--` post-statement. -/
theorem runLoop_recv_active (st : SupState) (i : Fin 3) (rest : List Event) (e : SvcError)
    (h : ¬ st.retries < 0) (hh : st.handles i = HState.pendingSend e) :
    runLoop st (Event.recv i :: rest)
      = runLoop { stepRecv st i with retries := st.retries - 1 } rest := by
  rw [runLoop.eq_def]
  simp [h, hh]

/-- A `recv` event on a channel that is not ready is an impossible
schedule. -/
theorem runLoop_recv_stuck (st : SupState) (i : Fin 3) (rest : List Event)
    (h : ¬ st.retries < 0) (hh : ∀ e, st.handles i ≠ HState.pendingSend e) :
    runLoop st (Event.recv i :: rest) = none := by
  rw [runLoop.eq_def]
  rcases hs : st.handles i with _ | e | _
  · simp [h, hs]
  · exact absurd hs (hh e)
  · simp [h, hs]

/-- One loop iteration consumes exactly one completion value. -/
theorem stepRecv_consumed (st : SupState) (i : Fin 3) :
    (stepRecv st i).consumed = st.consumed + 1 := by
  unfold stepRecv
  split <;> rfl

/-- The loop body itself never touches the `retries` counter; only the
`for` post-statement does. -/
theorem stepRecv_retries (st : SupState) (i : Fin 3) :
    (stepRecv st i).retries = st.retries := by
  unfold stepRecv
  split <;> rfl

/-- While budget remains, the iteration restarts exactly the completed
service. -/
theorem stepRecv_restarts_pos (st : SupState) (i : Fin 3) (h : 0 < st.retries) :
    (stepRecv st i).restarts = st.restarts ++ [i] := by
  unfold stepRecv
  rw [if_pos h]

/-- On the last permitted iteration no restart is issued. -/
theorem stepRecv_restarts_zero (st : SupState) (i : Fin 3) (h : ¬ 0 < st.retries) :
    (stepRecv st i).restarts = st.restarts := by
  unfold stepRecv
  rw [if_neg h]

/-- A loop iteration keeps every service's cancellation token allocated:
a restart replaces the token with a fresh one, never with nil. -/
theorem stepRecv_services_cancel (st : SupState) (i : Fin 3)
    (hc : ∀ j, ((st.services j).cancel).isSome) (j : Fin 3) :
    (((stepRecv st i).services j).cancel).isSome := by
  unfold stepRecv
  split
  · rcases eq_or_ne j i with rfl | hne
    · simp [Function.update_same, Service.startToken]
    · simp [Function.update_apply, hne, hc j]
  · exact hc j

/-- The consumed prefix of the schedule contributes its `recv` services in
order. -/
theorem recvTargets_cons_recv (i : Fin 3) (rest : List Event) :
    recvTargets (Event.recv i :: rest) = i :: recvTargets rest := rfl

theorem recvTargets_cons_finish (i : Fin 3) (rest : List Event) :
    recvTargets (Event.finish i :: rest) = recvTargets rest := rfl

/-- Conservation law of the loop: the sum of the `retries` counter and the
number of completion events consumed so far never changes, whichever events
occur and however the loop exits — the counter moves only in lockstep with
completion events. -/
theorem runLoop_budget_sum (events : List Event) :
    ∀ (st st' : SupState) (cause : ExitCause),
      runLoop st events = some (st', cause) →
      st'.retries + (st'.consumed : Int) = st.retries + (st.consumed : Int) := by
  induction events with
  | nil =>
    intro st st' cause h
    by_cases hlt : st.retries < 0
    · rw [runLoop_budget_exit st [] hlt] at h
      simp only [Option.some.injEq, Prod.mk.injEq] at h
      obtain ⟨rfl, rfl⟩ := h
      rfl
    · rw [runLoop_nil_active st hlt] at h
      simp at h
  | cons e rest ih =>
    intro st st' cause h
    by_cases hlt : st.retries < 0
    · rw [runLoop_budget_exit st (e :: rest) hlt] at h
      simp only [Option.some.injEq, Prod.mk.injEq] at h
      obtain ⟨rfl, rfl⟩ := h
      rfl
    · cases e with
      | finish i =>
        rcases hs : st.handles i with _ | e' | _
        · rw [runLoop_finish_active st i rest hlt hs] at h
          simpa using ih _ _ _ h
        · rw [runLoop_finish_stuck st i rest hlt (by simp [hs])] at h
          simp at h
        · rw [runLoop_finish_stuck st i rest hlt (by simp [hs])] at h
          simp at h
      | recv i =>
        rcases hs : st.handles i with _ | e' | _
        · rw [runLoop_recv_stuck st i rest hlt (by simp [hs])] at h
          simp at h
        · rw [runLoop_recv_active st i rest e' hlt hs] at h
          have h2 := ih _ _ _ h
          simp only [stepRecv_consumed] at h2
          push_cast at h2 ⊢
          omega
        · rw [runLoop_recv_stuck st i rest hlt (by simp [hs])] at h
          simp at h
      | signal =>
        rw [runLoop_signal_active st rest hlt] at h
        simp only [Option.some.injEq, Prod.mk.injEq] at h
        obtain ⟨rfl, rfl⟩ := h
        rfl

/-- Auxiliary induction for schedules with no signal: from a state whose
counter equals a budget `r`, a terminating loop run must end by budget
exhaustion, consumes exactly `r + 1` completion events, and issues restarts
exactly for the services of the first `r` consumed completions, in order. -/
theorem runLoop_no_signal_spec (events : List Event) :
    ∀ (r : Nat) (st st' : SupState) (cause : ExitCause),
      st.retries = (r : Int) →
      Event.signal ∉ events →
      runLoop st events = some (st', cause) →
      cause = ExitCause.budget ∧
      st'.consumed = st.consumed + (r + 1) ∧
      st'.restarts = st.restarts ++ (recvTargets events).take r := by
  induction events with
  | nil =>
    intro r st st' cause hr hns h
    have hlt : ¬ st.retries < 0 := by omega
    rw [runLoop_nil_active st hlt] at h
    simp at h
  | cons e rest ih =>
    intro r st st' cause hr hns h
    have hlt : ¬ st.retries < 0 := by omega
    have hns' : Event.signal ∉ rest := fun hm => hns (List.mem_cons_of_mem _ hm)
    cases e with
    | finish i =>
      rcases hs : st.handles i with _ | e' | _
      · rw [runLoop_finish_active st i rest hlt hs] at h
        have h2 := ih r _ _ _ (by simpa using hr) hns' h
        simpa [recvTargets_cons_finish] using h2
      · rw [runLoop_finish_stuck st i rest hlt (by simp [hs])] at h
        simp at h
      · rw [runLoop_finish_stuck st i rest hlt (by simp [hs])] at h
        simp at h
    | recv i =>
      rcases hs : st.handles i with _ | e' | _
      · rw [runLoop_recv_stuck st i rest hlt (by simp [hs])] at h
        simp at h
      · rw [runLoop_recv_active st i rest e' hlt hs] at h
        rcases r with _ | r'
        · have hneg : ({ stepRecv st i with retries := st.retries - 1 } : SupState).retries < 0 := by
            simp [hr]
          rw [runLoop_budget_exit _ rest hneg] at h
          simp only [Option.some.injEq, Prod.mk.injEq] at h
          obtain ⟨rfl, rfl⟩ := h
          refine ⟨rfl, ?_, ?_⟩
          · simp [stepRecv_consumed]
          · have h0 : ¬ 0 < st.retries := by omega
            simp [stepRecv_restarts_zero st i h0]
        · have hretr : ({ stepRecv st i with retries := st.retries - 1 } : SupState).retries
              = ((r' : Nat) : Int) := by
            simp [hr]
          have h2 := ih r' _ _ _ hretr hns' h
          obtain ⟨hc2, hcons, hrest⟩ := h2
          have hpos : 0 < st.retries := by omega
          refine ⟨hc2, ?_, ?_⟩
          · simp only [stepRecv_consumed] at hcons
            omega
          · rw [hrest]
            simp only [stepRecv_restarts_pos st i hpos, recvTargets_cons_recv,
              List.take_succ_cons, List.append_assoc, List.singleton_append]
      · rw [runLoop_recv_stuck st i rest hlt (by simp [hs])] at h
        simp at h
    | signal =>
      exact absurd (List.mem_cons_self _ _) hns

/-- Invariant: once every service has been started, a loop run leaves every
service with an allocated cancellation token, whatever schedule occurred —
so the stop-all epilogue can never hit a nil `cancel`. -/
theorem runLoop_cancel_isSome (events : List Event) :
    ∀ (st st' : SupState) (cause : ExitCause),
      (∀ i, ((st.services i).cancel).isSome) →
      runLoop st events = some (st', cause) →
      ∀ i, ((st'.services i).cancel).isSome := by
  induction events with
  | nil =>
    intro st st' cause hc h
    by_cases hlt : st.retries < 0
    · rw [runLoop_budget_exit st [] hlt] at h
      simp only [Option.some.injEq, Prod.mk.injEq] at h
      obtain ⟨rfl, rfl⟩ := h
      exact hc
    · rw [runLoop_nil_active st hlt] at h
      simp at h
  | cons e rest ih =>
    intro st st' cause hc h
    by_cases hlt : st.retries < 0
    · rw [runLoop_budget_exit st (e :: rest) hlt] at h
      simp only [Option.some.injEq, Prod.mk.injEq] at h
      obtain ⟨rfl, rfl⟩ := h
      exact hc
    · cases e with
      | finish i =>
        rcases hs : st.handles i with _ | e' | _
        · rw [runLoop_finish_active st i rest hlt hs] at h
          refine ih _ _ _ ?_ h
          exact fun j => hc j
        · rw [runLoop_finish_stuck st i rest hlt (by simp [hs])] at h
          simp at h
        · rw [runLoop_finish_stuck st i rest hlt (by simp [hs])] at h
          simp at h
      | recv i =>
        rcases hs : st.handles i with _ | e' | _
        · rw [runLoop_recv_stuck st i rest hlt (by simp [hs])] at h
          simp at h
        · rw [runLoop_recv_active st i rest e' hlt hs] at h
          refine ih _ _ _ ?_ h
          exact fun j => stepRecv_services_cancel st i hc j
        · rw [runLoop_recv_stuck st i rest hlt (by simp [hs])] at h
          simp at h
      | signal =>
        rw [runLoop_signal_active st rest hlt] at h
        simp only [Option.some.injEq, Prod.mk.injEq] at h
        obtain ⟨rfl, rfl⟩ := h
        exact hc

/-- Every service of the initial state carries a fresh token. -/
theorem initState_cancel_isSome (r : Nat) (i : Fin 3) :
    (((initState r).services i).cancel).isSome := rfl

/-- When every token is allocated, the stop-all epilogue succeeds and
signals all three tokens. -/
theorem stopAll_eq (st : SupState) (hc : ∀ i, ((st.services i).cancel).isSome) :
    stopAll st = some (stoppedState st) := by
  obtain ⟨b0, h0⟩ := Option.isSome_iff_exists.mp (hc 0)
  obtain ⟨b1, h1⟩ := Option.isSome_iff_exists.mp (hc 1)
  obtain ⟨b2, h2⟩ := Option.isSome_iff_exists.mp (hc 2)
  have hfun : (![{ st.services 0 with cancel := some true },
                 { st.services 1 with cancel := some true },
                 { st.services 2 with cancel := some true }] : Fin 3 → Service)
      = fun i => { st.services i with cancel := some true } := by
    funext i
    fin_cases i <;> simp
  simp [stopAll, Service.Stop, h0, h1, h2, stoppedState, hfun]

/-- C1: for every retry budget `r ≥ 0`, if the signal never fires, a
terminating run of the restart loop ends by budget exhaustion after
consuming exactly `r + 1` completion events, and the restarts issued are
exactly the completed services of the first `r` consumed completions, in
order — none after the last. -/
theorem spec_C1_budget_loop (r : Nat) (events : List Event) (st' : SupState)
    (cause : ExitCause) (hns : Event.signal ∉ events)
    (h : runLoop (initState r) events = some (st', cause)) :
    cause = ExitCause.budget ∧
    st'.consumed = r + 1 ∧
    st'.restarts = (recvTargets events).take r := by
  have h2 := runLoop_no_signal_spec events r (initState r) st' cause rfl hns h
  simpa [initState] using h2

theorem spec_C1_witness :
    ExitCause.budget = ExitCause.budget ∧
    w1st.consumed = 2 + 1 ∧
    w1st.restarts = (recvTargets ev1).take 2 :=
  spec_C1_budget_loop 2 ev1 w1st ExitCause.budget (by decide) rfl

/-- C9: while control stays in the loop the shared budget counter moves in
lockstep with consumed completion events: however the loop exits, the final
counter equals the initial budget minus the number of completion events
consumed — one decrement per completion, none for anything else (a signal
exit leaves the counter where the completions put it), and it is the single
counter shared by all three services. -/
theorem spec_C9_budget_counter (r : Nat) (events : List Event) (st' : SupState)
    (cause : ExitCause) (h : runLoop (initState r) events = some (st', cause)) :
    st'.retries = (r : Int) - (st'.consumed : Int) := by
  have h2 := runLoop_budget_sum events (initState r) st' cause h
  simp [initState] at h2
  omega

theorem spec_C9_witness :
    w1st.retries = ((2 : Nat) : Int) - (w1st.consumed : Int) :=
  spec_C9_budget_counter 2 ev1 w1st ExitCause.budget rfl

/-- C6: whatever budget remains, a signal makes the active loop exit at
once with its state untouched — no restart is issued in response, no
completion is consumed — and control proceeds directly to the cancel-all
and drain phase, exactly as after budget exhaustion (`mainFrom` runs the
same stop-all and drain whichever cause ended the loop). -/
theorem spec_C6_shutdown (st : SupState) (rest : List Event) (w : Fin 3 → RaceWinner)
    (hr : 0 ≤ st.retries) (hc : ∀ i, ((st.services i).cancel).isSome) :
    runLoop st (Event.signal :: rest) = some (st, ExitCause.shutdown) ∧
    mainFrom st (Event.signal :: rest) w = some (drainAll (stoppedState st) w) := by
  have hlt : ¬ st.retries < 0 := by omega
  have h1 := runLoop_signal_active st rest hlt
  refine ⟨h1, ?_⟩
  simp [mainFrom, h1, stopAll_eq st hc]

theorem spec_C6_witness :
    runLoop (initState 0) [Event.signal] = some (initState 0, ExitCause.shutdown) ∧
    mainFrom (initState 0) [Event.signal] (fun _ => RaceWinner.cancelled)
      = some (drainAll (stoppedState (initState 0)) (fun _ => RaceWinner.cancelled)) :=
  spec_C6_shutdown (initState 0) [] (fun _ => RaceWinner.cancelled) (by decide)
    (initState_cancel_isSome 0)

/-- C8: a restart issued while budget remains replaces only the completed
service's channel slot — slot `i` becomes a fresh running channel of the
next generation — and every other service's channel, generation and service
record are left exactly as they were. -/
theorem spec_C8_restart_frame (st : SupState) (i j : Fin 3)
    (hret : 0 < st.retries) (hij : j ≠ i) :
    (stepRecv st i).handles j = st.handles j ∧
    (stepRecv st i).gens j = st.gens j ∧
    (stepRecv st i).services j = st.services j ∧
    (stepRecv st i).handles i = HState.running ∧
    (stepRecv st i).gens i = st.gens i + 1 := by
  refine ⟨?_, ?_, ?_, ?_, ?_⟩ <;>
    simp [stepRecv, hret, Function.update_apply, hij]

theorem spec_C8_witness :
    (stepRecv (initState 2) 1).handles 0 = (initState 2).handles 0 ∧
    (stepRecv (initState 2) 1).gens 0 = (initState 2).gens 0 ∧
    (stepRecv (initState 2) 1).services 0 = (initState 2).services 0 ∧
    (stepRecv (initState 2) 1).handles 1 = HState.running ∧
    (stepRecv (initState 2) 1).gens 1 = (initState 2).gens 1 + 1 :=
  spec_C8_restart_frame (initState 2) 1 0 (by decide) (by decide)

/-- C5: however the loop ended, `main` requests cancellation on every
service (never hitting a nil token, by the loop invariant) and then
performs one final read of each service's current completion handle, every
read observing a terminal value: a completed-but-unconsumed run delivers
its timeout error (logged), an already-consumed handle yields `nil`
immediately, and a still-running service resolves its race after the
cancellation request. -/
theorem spec_C5_drain (r : Nat) (events : List Event) (w : Fin 3 → RaceWinner)
    (st' : SupState) (cause : ExitCause)
    (h : runLoop (initState r) events = some (st', cause)) :
    mainModel r events w = some (drainAll (stoppedState st') w) ∧
    (∀ i e, st'.handles i = HState.pendingSend e →
      drainAll (stoppedState st') w i = some e) ∧
    (∀ i, st'.handles i = HState.closedDone → drainAll (stoppedState st') w i = none) := by
  have hc := runLoop_cancel_isSome events (initState r) st' cause
    (initState_cancel_isSome r) h
  refine ⟨?_, ?_, ?_⟩
  · simp [mainModel, mainFrom, h, stopAll_eq st' hc]
  · intro i e hi
    simp [drainAll, drainRead, stoppedState, hi]
  · intro i hi
    simp [drainAll, drainRead, stoppedState, hi]

theorem spec_C5_witness :
    mainModel 0 [Event.finish 1, Event.recv 1] (fun _ => RaceWinner.cancelled)
      = some (drainAll (stoppedState w5st) (fun _ => RaceWinner.cancelled)) ∧
    drainAll (stoppedState w5st) (fun _ => RaceWinner.cancelled) 1 = none :=
  ⟨(spec_C5_drain 0 [Event.finish 1, Event.recv 1] (fun _ => RaceWinner.cancelled)
      w5st ExitCause.budget rfl).1,
   (spec_C5_drain 0 [Event.finish 1, Event.recv 1] (fun _ => RaceWinner.cancelled)
      w5st ExitCause.budget rfl).2.2 1 rfl⟩
